import Mathlib

/-!
Verification of the spaced-repetition core of the uchuuichi flashcard app
(`LearningAlgorithm` in `src/lib/learning-algorithm.ts`).

Modelling conventions for the shallow embedding:
* JavaScript numbers are modelled as rationals (`ℚ`); timestamps are
  milliseconds since the epoch as rationals.
* `new Date()` is modelled by an explicit `now : ℚ` parameter (the spec
  makes the current time injectable).
* `Array.prototype.sort` with the comparator
  `(a, b) => priority(a) - priority(b)` is a stable ascending sort, modelled
  by `List.insertionSort` (a stable sort) on the same total preorder.
* `Array.prototype.slice(0, end)` is modelled by `jsTake`, including the
  JavaScript semantics for a negative `end` (counted from the end of the
  array, clamped at 0).
* `Math.random()`-driven Fisher–Yates shuffling is modelled by an injectable
  `rand : Nat → Nat` source; at loop index `i` the swap partner is
  `rand i % (i + 1)`, the image of `Math.floor(Math.random() * (i + 1))`.
* `card.confidence || 50` uses JavaScript falsiness of the number 0, so a
  stored confidence of exactly 0 is replaced by 50.
* The unused `focusOnWeak` parameter of `generateStudyDeck` is dropped.
-/

attribute [local semireducible] Rat.add Rat.mul Rat.inv Rat.sub

namespace Uchuuichi

/-- The review-state and classification fields of `FlashCard` (types.ts) that
the learning algorithm reads.  Content fields (question, answer, …) are
opaque to the core and omitted; `id` stands in for the identity. -/
structure FlashCard where
  id : Nat
  difficulty : ℚ
  reviewCount : Nat
  correctCount : Nat
  confidence : ℚ
  nextReview : Option ℚ
  deriving DecidableEq, Repr

/-- One day in milliseconds: `24 * 60 * 60 * 1000`. -/
def dayMs : ℚ := 86400000

/-- Result record of `calculateNextReview`: `{ nextReview, confidence }`. -/
structure ReviewResult where
  nextReview : ℚ
  confidence : ℚ
  deriving DecidableEq, Repr

/-- Source function `LearningAlgorithm.calculateNextReview(card, quality)`,
with the call to
`new Date()` made explicit as `now`.  `card.confidence || 50` replaces a
stored confidence of exactly 0 (falsy in JavaScript) by 50. -/
def calculateNextReview (card : FlashCard) (quality : ℤ) (now : ℚ) : ReviewResult :=
  let confidence0 : ℚ := if card.confidence = 0 then 50 else card.confidence
  let confidence : ℚ :=
    if quality ≥ 3 then min 100 (confidence0 + ((quality : ℚ) - 3) * 15)
    else max 0 (confidence0 - (3 - (quality : ℚ)) * 20)
  let interval0 : ℚ :=
    if confidence ≥ 90 then 7
    else if confidence ≥ 70 then 3
    else if confidence ≥ 50 then 1
    else if confidence ≥ 30 then 1/4
    else 42/1000
  let interval : ℚ :=
    if card.reviewCount > 0 then
      let successRate : ℚ := (card.correctCount : ℚ) / (card.reviewCount : ℚ)
      if successRate > 4/5 then interval0 * (3/2)
      else if successRate < 1/2 then interval0 * (1/2)
      else interval0
    else interval0
  { nextReview := now + interval * dayMs, confidence := confidence }

/-- Source function `LearningAlgorithm.getCardPriority(card)` with
`new Date()` as `now`.
A `Date` object is always truthy, so `card.nextReview && …` is a test that
`nextReview` is present. -/
def getCardPriority (card : FlashCard) (now : ℚ) : ℚ :=
  if card.reviewCount = 0 then 0
  else
    let base : ℚ :=
      match card.nextReview with
      | some t =>
        if t < now then -((now - t) / dayMs)
        else (t - now) / dayMs
      | none => 0
    base - (100 - card.confidence) / 50 - card.difficulty * 2

/-- JavaScript `array.slice(0, n)` for an integer `n`: a negative `n` counts
from the end of the array (`max(len + n, 0)`). -/
def jsTake (l : List α) (n : ℤ) : List α :=
  if n < 0 then l.take ((l.length : ℤ) + n).toNat else l.take n.toNat

/-- Source expression
`[...cards].sort((a, b) => getCardPriority(a) - getCardPriority(b))`:
the stable ascending sort by priority. -/
def sortByPriority (cards : List FlashCard) (now : ℚ) : List FlashCard :=
  cards.insertionSort (fun a b => getCardPriority a now ≤ getCardPriority b now)

/-- The deck-composition part of `LearningAlgorithm.generateStudyDeck` (sort,
partition, slot allocation, fill, backfill) before the shuffle step. -/
def composeDeck (cards : List FlashCard) (deckSize : ℤ) (now : ℚ) : List FlashCard :=
  let sortedCards := sortByPriority cards now
  let newCards := sortedCards.filter (fun c => c.reviewCount == 0)
  let dueCards := sortedCards.filter (fun c =>
    match c.nextReview with
    | some t => decide (t ≤ now) && decide (c.reviewCount > 0)
    | none => false)
  let weakCards := sortedCards.filter (fun c =>
    decide (c.confidence < 50) && decide (c.reviewCount > 0))
  let newCardLimit : ℤ := ⌊(deckSize : ℚ) * (3/10)⌋
  let weakCardLimit : ℤ := ⌊(deckSize : ℚ) * (4/10)⌋
  let dueCardLimit : ℤ := deckSize - newCardLimit - weakCardLimit
  let deck := jsTake newCards newCardLimit ++ jsTake weakCards weakCardLimit ++
    jsTake dueCards dueCardLimit
  if (deck.length : ℤ) < deckSize then
    let remaining := sortedCards.filter (fun c => !(deck.contains c))
    deck ++ jsTake remaining (deckSize - (deck.length : ℤ))
  else deck

/-- Swap the entries at positions `i` and `j` (no-op when out of range), as
`[arr[i], arr[j]] = [arr[j], arr[i]]` on an array. -/
def listSwap (l : List α) (i j : Nat) : List α :=
  match l[i]?, l[j]? with
  | some a, some b => (l.set i b).set j a
  | some _, none => l
  | none, _ => l

/-- The Fisher–Yates loop `for (let i = len - 1; i > 0; i--)`, counting the
loop variable down from `i`; at index `i` the swap partner is
`rand i % (i + 1)`. -/
def fyLoop (rand : Nat → Nat) : List α → Nat → List α
  | l, 0 => l
  | l, i + 1 => fyLoop rand (listSwap l (i + 1) (rand (i + 1) % (i + 2))) i

/-- The in-place shuffle of `toShuffle` in `generateStudyDeck`, with the
random source injected. -/
def fisherYates (rand : Nat → Nat) (l : List α) : List α :=
  fyLoop rand l (l.length - 1)

/-- Source function `LearningAlgorithm.generateStudyDeck(cards, deckSize)`:
compose the deck,
keep the first `fixedCount = 3` cards, shuffle the rest. -/
def generateStudyDeck (cards : List FlashCard) (deckSize : ℤ) (now : ℚ)
    (rand : Nat → Nat) : List FlashCard :=
  let deck := composeDeck cards deckSize now
  deck.take 3 ++ fisherYates rand (deck.drop 3)

/-! Specification-shaped definitions, written from the wording of the spec, to
be compared with the source-derived functions above. -/

/-- Base priority as the spec words it: signed days relative to the due date,
`-(overdueDays)` in the past, `daysUntilReview` in the future, 0 when unset. -/
def priorityBaseSpec (card : FlashCard) (now : ℚ) : ℚ :=
  match card.nextReview with
  | some t => if t < now then -((now - t) / dayMs) else (t - now) / dayMs
  | none => 0

/-- Clamp a confidence value to the interval [0, 100]. -/
def clampConfidence (x : ℚ) : ℚ := min 100 (max 0 x)

/-- Confidence update as the claim words it: add `(quality - 3) * 15` when
`quality ≥ 3`, subtract `(3 - quality) * 20` otherwise, clamp to [0,100]. -/
def confidenceUpdateSpec (conf : ℚ) (quality : ℤ) : ℚ :=
  if quality ≥ 3 then clampConfidence (conf + ((quality : ℚ) - 3) * 15)
  else clampConfidence (conf - (3 - (quality : ℚ)) * 20)

/-- Base review interval in days selected from the resulting confidence by the
fixed thresholds of the spec. -/
def intervalForConfidence (conf : ℚ) : ℚ :=
  if conf ≥ 90 then 7
  else if conf ≥ 70 then 3
  else if conf ≥ 50 then 1
  else if conf ≥ 30 then 1/4
  else 42/1000

/-- Historical-success multiplier: `1.5` when the success rate is strictly
above `0.8`, `0.5` when strictly below `0.5`, otherwise 1; no adjustment when
the card was never reviewed. -/
def successMultiplier (correctCount reviewCount : Nat) : ℚ :=
  if reviewCount = 0 then 1
  else if (correctCount : ℚ) / (reviewCount : ℚ) > 4/5 then 3/2
  else if (correctCount : ℚ) / (reviewCount : ℚ) < 1/2 then 1/2
  else 1

/-! Concrete cards used to evaluate the code at specific inputs. -/

/-- A card that is in both the weak partition (confidence 20 < 50,
reviewCount 1 > 0) and the due partition (nextReview one day before `now = 0`,
reviewCount 1 > 0). -/
def overdueWeakCard : FlashCard :=
  { id := 1, difficulty := 1, reviewCount := 1, correctCount := 0,
    confidence := 20, nextReview := some (-86400000) }

/-- A never-reviewed card with identifier `i`. -/
def freshCard (i : Nat) : FlashCard :=
  { id := i, difficulty := 1, reviewCount := 0, correctCount := 0,
    confidence := 0, nextReview := none }

/-- A due but not weak card, ten days overdue at `now = 0`, the most urgent
card of the C7 pool. -/
def urgentDueCard : FlashCard :=
  { id := 10, difficulty := 1, reviewCount := 5, correctCount := 5,
    confidence := 80, nextReview := some (-864000000) }

/-- A weak but not due card, less urgent than `urgentDueCard`. -/
def weakOnlyCard : FlashCard :=
  { id := 11, difficulty := 1, reviewCount := 5, correctCount := 5,
    confidence := 20, nextReview := none }

/-- A card whose historical success rate is exactly 0.8 (4 of 5), the upper
boundary of the no-adjustment band. -/
def boundaryRateCard : FlashCard :=
  { id := 12, difficulty := 2, reviewCount := 5, correctCount := 4,
    confidence := 60, nextReview := some 86400000 }

/-! Theorems settling the claims. -/

/-- Taking a JavaScript slice of the empty array yields the empty array. -/
theorem jsTake_nil (n : ℤ) : jsTake ([] : List α) n = [] := by
  unfold jsTake
  split <;> simp

/-- A JavaScript slice `slice(0, 0)` is empty. -/
theorem jsTake_zero (l : List α) : jsTake l 0 = [] := by
  unfold jsTake
  norm_num

/-- Shuffling the empty list yields the empty list. -/
theorem fisherYates_nil (rand : Nat → Nat) : fisherYates rand ([] : List α) = [] := rfl

/-- Composing a deck from the empty pool yields the empty deck, for every
requested size (also negative ones). -/
theorem composeDeck_nil (n : ℤ) (now : ℚ) : composeDeck [] n now = [] := by
  unfold composeDeck sortByPriority
  simp [jsTake_nil]

/-- Composing a deck with requested size 0 yields the empty deck: all three
slot counts are 0 and the backfill guard `deck.length < deckSize` fails. -/
theorem composeDeck_zero_size (cards : List FlashCard) (now : ℚ) :
    composeDeck cards 0 now = [] := by
  unfold composeDeck
  norm_num [jsTake_zero]

/-- C1: the code violates the claim.  For a pool holding the single card
`overdueWeakCard` — pairwise-distinct ids trivially — and requested size 10,
`generateStudyDeck` returns the card twice: it is sliced into the deck from
the weak partition and again from the due partition, with no duplicate check
between the two (only the later backfill checks `deck.includes`).  The
identifier 1 hence occurs twice in the returned deck. -/
theorem generateStudyDeck_duplicate_bug :
    generateStudyDeck [overdueWeakCard] 10 0 (fun _ => 0) =
      [overdueWeakCard, overdueWeakCard] := by decide

/-- C5: the code violates the claim at the same failing input.  In normal mode
(no pre-filter), the deck generated from the one-card pool `[overdueWeakCard]`
with requested size 10 has length 2, not `min 10 1 = 1`: the card enters the
deck from both the weak and the due partition. -/
theorem generateStudyDeck_length_bug :
    (generateStudyDeck [overdueWeakCard] 10 0 (fun _ => 0)).length ≠
      min 10 [overdueWeakCard].length := by decide

/-- C8: a stored confidence of exactly 0 is falsy in `card.confidence || 50`,
so `calculateNextReview` treats it as unset and uses the default 50: for every
card, every quality and every current time, the result on the card with
confidence 0 coincides with the result on the identical card with
confidence 50. -/
theorem calculateNextReview_zero_confidence_default (card : FlashCard)
    (quality : ℤ) (now : ℚ) :
    calculateNextReview { card with confidence := 0 } quality now =
      calculateNextReview { card with confidence := 50 } quality now := by
  simp [calculateNextReview]

/-- C6: counterexample — the claim fails for negative requested sizes.  With
the three-card pool of never-reviewed cards and requested size `-5`, the slot
counts become `⌊-1.5⌋ = -2`, `⌊-2⌋ = -2` and `-1`, and a JavaScript
`slice(0, -2)` of the three new cards keeps the first card, so the returned
deck is non-empty. -/
theorem generateStudyDeck_negative_size_bug :
    generateStudyDeck [freshCard 1, freshCard 2, freshCard 3] (-5) 0 (fun _ => 0) ≠ [] := by
  decide

/-- C6 (amended): `generateStudyDeck` returns the empty deck whenever the pool
is empty (for every requested size, also negative ones), and returns the empty
deck whenever the requested size is exactly 0 (for every pool); neither case
is an error.  For strictly negative sizes the deck can be non-empty. -/
theorem generateStudyDeck_empty_cases :
    (∀ (n : ℤ) (now : ℚ) (rand : Nat → Nat), generateStudyDeck [] n now rand = []) ∧
    (∀ (cards : List FlashCard) (now : ℚ) (rand : Nat → Nat),
      generateStudyDeck cards 0 now rand = []) := by
  constructor
  · intro n now rand
    simp [generateStudyDeck, composeDeck_nil, fisherYates_nil]
  · intro cards now rand
    simp [generateStudyDeck, composeDeck_zero_size, fisherYates_nil]

/-- C7: counterexample — the first `min(3, deck.length)` entries of the
generated deck need not be the head of the priority-sorted pool.  In the
two-card pool, `urgentDueCard` is strictly more urgent (priority `-12.4`
against `-3.6`), so the sorted pool is `[urgentDueCard, weakOnlyCard]`; but
the composed deck places the weak partition before the due partition, so the
deck starts with `weakOnlyCard`. -/
theorem generateStudyDeck_top3_bug :
    (generateStudyDeck [urgentDueCard, weakOnlyCard] 20 0 (fun _ => 0)).take 3 ≠
      (sortByPriority [urgentDueCard, weakOnlyCard] 0).take 3 := by
  decide

/-- C7 (amended): for every pool, size, time and shuffle source, the first
`min(3, deck.length)` entries of the deck returned by `generateStudyDeck`
equal the first `min(3, deck.length)` entries of the composed
(pre-shuffle) deck: the shuffle step permutes only the positions after the
first three and leaves the front of the composed deck in place. -/
theorem generateStudyDeck_preserves_first_three (cards : List FlashCard) (n : ℤ)
    (now : ℚ) (rand : Nat → Nat) :
    (generateStudyDeck cards n now rand).take 3 = (composeDeck cards n now).take 3 := by
  show (List.take 3 (composeDeck cards n now) ++
      fisherYates rand (List.drop 3 (composeDeck cards n now))).take 3 =
    (composeDeck cards n now).take 3
  rcases le_or_lt 3 (composeDeck cards n now).length with h | h
  · rw [List.take_append_eq_append_take, List.take_take]
    simp [List.length_take, Nat.min_eq_left h]
  · have hd : (composeDeck cards n now).drop 3 = [] := by
      rw [List.drop_eq_nil_iff]
      omega
    rw [hd, fisherYates_nil]
    simp [List.take_take]

/-- C2: `getCardPriority` returns 0 for a never-reviewed card, short-circuiting
before the confidence, difficulty and due-date terms; otherwise it returns the
signed-days base term (negative overdue days in the past, positive days until
review in the future, 0 when `nextReview` is unset) minus
`(100 - confidence) / 50` minus `difficulty * 2`. -/
theorem getCardPriority_formula (card : FlashCard) (now : ℚ) :
    getCardPriority card now =
      if card.reviewCount = 0 then 0
      else priorityBaseSpec card now - (100 - card.confidence) / 50 -
        card.difficulty * 2 := rfl

/-- The updated-confidence component of `calculateNextReview`, unfolded. -/
theorem confidence_unfold (card : FlashCard) (quality : ℤ) (now : ℚ) :
    (calculateNextReview card quality now).confidence =
      (if quality ≥ 3 then
        min 100 ((if card.confidence = 0 then 50 else card.confidence) +
          ((quality : ℚ) - 3) * 15)
      else
        max 0 ((if card.confidence = 0 then 50 else card.confidence) -
          (3 - (quality : ℚ)) * 20)) := rfl

/-- The one-sided clamps of the source agree with the two-sided clamp of the
spec whenever the incoming confidence lies in [0, 100]. -/
theorem confidenceUpdate_code_eq_spec (c : ℚ) (quality : ℤ) (h0 : 0 ≤ c)
    (h1 : c ≤ 100) :
    (if quality ≥ 3 then min 100 (c + ((quality : ℚ) - 3) * 15)
      else max 0 (c - (3 - (quality : ℚ)) * 20)) =
      confidenceUpdateSpec c quality := by
  unfold confidenceUpdateSpec clampConfidence
  split
  · next hq =>
    have hq3 : (3 : ℚ) ≤ (quality : ℚ) := by exact_mod_cast hq
    have hd : (0 : ℚ) ≤ ((quality : ℚ) - 3) * 15 := by nlinarith
    rw [max_eq_right (by linarith)]
  · next hq =>
    have hq3 : (quality : ℚ) ≤ 3 := by
      have : quality ≤ 3 := by omega
      exact_mod_cast this
    have hd : (0 : ℚ) ≤ (3 - (quality : ℚ)) * 20 := by nlinarith
    rw [min_eq_right (max_le (by norm_num) (by linarith))]

/-- The clamp keeps every value inside [0, 100]. -/
theorem clampConfidence_bounds (x : ℚ) :
    0 ≤ clampConfidence x ∧ clampConfidence x ≤ 100 := by
  unfold clampConfidence
  exact ⟨le_min (by norm_num) (le_max_left _ _), min_le_left _ _⟩

/-- The spec confidence update always lands in [0, 100]. -/
theorem confidenceUpdateSpec_bounds (c : ℚ) (quality : ℤ) :
    0 ≤ confidenceUpdateSpec c quality ∧ confidenceUpdateSpec c quality ≤ 100 := by
  unfold confidenceUpdateSpec
  split
  · exact clampConfidence_bounds _
  · exact clampConfidence_bounds _

/-- C3: counterexample — for the card `freshCard 1`, whose stored confidence
is exactly 0, and quality 5, the returned confidence is 80 (the falsy 0 is
replaced by the default 50 before the update: `min 100 (50 + 30)`), not the
claimed `clamp(0 + (5 - 3) * 15) = 30`. -/
theorem calculateNextReview_confidence_claim_fails :
    (calculateNextReview (freshCard 1) 5 0).confidence ≠
      confidenceUpdateSpec (freshCard 1).confidence 5 := by decide

/-- C3 (amended): for every card with stored confidence in [0, 100] and every
quality in [0, 5], the confidence returned by `calculateNextReview` equals the
effective input confidence — the stored confidence, with an exact 0 first
replaced by the default 50 — plus `(quality - 3) * 15` when `quality ≥ 3`, or
minus `(3 - quality) * 20` when `quality < 3`, clamped to [0, 100]; hence the
returned confidence always lies in [0, 100]. -/
theorem calculateNextReview_confidence_spec (card : FlashCard) (quality : ℤ)
    (now : ℚ) (hc0 : 0 ≤ card.confidence) (hc1 : card.confidence ≤ 100)
    (hq0 : 0 ≤ quality) (hq1 : quality ≤ 5) :
    (calculateNextReview card quality now).confidence =
      confidenceUpdateSpec
        (if card.confidence = 0 then 50 else card.confidence) quality ∧
    0 ≤ (calculateNextReview card quality now).confidence ∧
    (calculateNextReview card quality now).confidence ≤ 100 := by
  have h0 : (0 : ℚ) ≤ (if card.confidence = 0 then 50 else card.confidence) := by
    split
    · norm_num
    · exact hc0
  have h1 : (if card.confidence = 0 then 50 else card.confidence) ≤ (100 : ℚ) := by
    split
    · norm_num
    · exact hc1
  rw [confidence_unfold, confidenceUpdate_code_eq_spec _ _ h0 h1]
  exact ⟨rfl, (confidenceUpdateSpec_bounds _ _).1, (confidenceUpdateSpec_bounds _ _).2⟩

/-- C3 (amended) witness: instantiation at `overdueWeakCard` and quality 4. -/
theorem calculateNextReview_confidence_spec_witness :
    (calculateNextReview overdueWeakCard 4 0).confidence =
      confidenceUpdateSpec
        (if overdueWeakCard.confidence = 0 then 50 else overdueWeakCard.confidence) 4 ∧
    0 ≤ (calculateNextReview overdueWeakCard 4 0).confidence ∧
    (calculateNextReview overdueWeakCard 4 0).confidence ≤ 100 :=
  calculateNextReview_confidence_spec overdueWeakCard 4 0 (by decide) (by decide)
    (by decide) (by decide)

/-- The next-review component of `calculateNextReview`, unfolded: the base
interval selected from the updated confidence, adjusted by the
historical-success branches, in days converted to milliseconds. -/
theorem nextReview_unfold (card : FlashCard) (quality : ℤ) (now : ℚ) :
    (calculateNextReview card quality now).nextReview =
      now + (if card.reviewCount > 0 then
          (if (card.correctCount : ℚ) / (card.reviewCount : ℚ) > 4/5 then
            intervalForConfidence ((calculateNextReview card quality now).confidence) * (3/2)
          else if (card.correctCount : ℚ) / (card.reviewCount : ℚ) < 1/2 then
            intervalForConfidence ((calculateNextReview card quality now).confidence) * (1/2)
          else intervalForConfidence ((calculateNextReview card quality now).confidence))
        else intervalForConfidence ((calculateNextReview card quality now).confidence)) *
        dayMs := rfl

/-- C4: for every card, quality and time, the returned `nextReview` is
`now + interval * day`, where the interval is the base interval selected from
the resulting confidence by the thresholds `≥90 → 7`, `≥70 → 3`, `≥50 → 1`,
`≥30 → 0.25`, else `0.042`, multiplied by the historical-success factor
(`1.5` when `correctCount / reviewCount > 0.8` strictly, `0.5` when `< 0.5`
strictly, computed from the counts stored on the card, i.e. from before this
presentation, and only when `reviewCount > 0`); and at the exact boundary
rates `0.8` and `0.5` the interval is the unadjusted base interval. -/
theorem calculateNextReview_nextReview_spec (card : FlashCard) (quality : ℤ)
    (now : ℚ) :
    (calculateNextReview card quality now).nextReview =
      now + intervalForConfidence ((calculateNextReview card quality now).confidence) *
        successMultiplier card.correctCount card.reviewCount * dayMs ∧
    (card.reviewCount ≠ 0 →
      ((card.correctCount : ℚ) / (card.reviewCount : ℚ) = 4/5 ∨
        (card.correctCount : ℚ) / (card.reviewCount : ℚ) = 1/2) →
      (calculateNextReview card quality now).nextReview =
        now + intervalForConfidence ((calculateNextReview card quality now).confidence) *
          dayMs) := by
  constructor
  · rw [nextReview_unfold]
    unfold successMultiplier
    split_ifs <;> first | ring1 | (exfalso; omega)
  · intro hrc hrate
    have hgt : ¬ ((card.correctCount : ℚ) / (card.reviewCount : ℚ) > 4/5) := by
      rcases hrate with h | h <;> rw [h] <;> norm_num
    have hlt : ¬ ((card.correctCount : ℚ) / (card.reviewCount : ℚ) < 1/2) := by
      rcases hrate with h | h <;> rw [h] <;> norm_num
    rw [nextReview_unfold, if_pos (Nat.pos_of_ne_zero hrc), if_neg hgt, if_neg hlt]

/-- C4 witness: instantiation at `boundaryRateCard` (`reviewCount = 5`,
`correctCount = 4`, success rate exactly 0.8) and quality 4: both the general
interval formula and the boundary clause (the interval is the unadjusted base
interval) hold, with the hypotheses of the boundary clause discharged at this
concrete input. -/
theorem calculateNextReview_nextReview_spec_witness :
    (calculateNextReview boundaryRateCard 4 0).nextReview =
      0 + intervalForConfidence ((calculateNextReview boundaryRateCard 4 0).confidence) *
        successMultiplier boundaryRateCard.correctCount boundaryRateCard.reviewCount *
        dayMs ∧
    (calculateNextReview boundaryRateCard 4 0).nextReview =
      0 + intervalForConfidence ((calculateNextReview boundaryRateCard 4 0).confidence) *
        dayMs :=
  ⟨(calculateNextReview_nextReview_spec boundaryRateCard 4 0).1,
    (calculateNextReview_nextReview_spec boundaryRateCard 4 0).2 (by decide)
      (Or.inl (by decide))⟩

/-- The base interval is strictly positive for every confidence value. -/
theorem intervalForConfidence_pos (c : ℚ) : 0 < intervalForConfidence c := by
  unfold intervalForConfidence
  split_ifs <;> norm_num

/-- C10: for every card and every quality in [0, 5], the scheduled
`nextReview` is strictly later than the current time: every base interval is
at least 0.042 days and the success-rate multipliers 1.5 and 0.5 keep the
interval strictly positive. -/
theorem calculateNextReview_future (card : FlashCard) (quality : ℤ) (now : ℚ)
    (hq0 : 0 ≤ quality) (hq1 : quality ≤ 5) :
    now < (calculateNextReview card quality now).nextReview := by
  rw [nextReview_unfold]
  have hI : 0 < intervalForConfidence ((calculateNextReview card quality now).confidence) :=
    intervalForConfidence_pos _
  have hday : (0 : ℚ) < dayMs := by norm_num [dayMs]
  refine lt_add_of_pos_right now ?_
  split_ifs
  · exact mul_pos (mul_pos hI (by norm_num)) hday
  · exact mul_pos (mul_pos hI (by norm_num)) hday
  · exact mul_pos hI hday
  · exact mul_pos hI hday

/-- C10 witness: instantiation at `overdueWeakCard`, quality 0, time 0. -/
theorem calculateNextReview_future_witness :
    (0 : ℚ) < (calculateNextReview overdueWeakCard 0 0).nextReview :=
  calculateNextReview_future overdueWeakCard 0 0 (by decide) (by decide)

/-- A JavaScript slice is a subset of the sliced array. -/
theorem jsTake_subset (l : List α) (n : ℤ) : jsTake l n ⊆ l := by
  unfold jsTake
  split <;> exact List.take_subset _ _

/-- The stable sort only permutes the pool. -/
theorem sortByPriority_subset (cards : List FlashCard) (now : ℚ) :
    sortByPriority cards now ⊆ cards := by
  intro x hx
  unfold sortByPriority at hx
  exact (List.mem_insertionSort _).mp hx

/-- Swapping two entries only permutes the list. -/
theorem mem_listSwap {l : List α} {i j : Nat} {x : α}
    (hx : x ∈ listSwap l i j) : x ∈ l := by
  unfold listSwap at hx
  rcases hi : l[i]? with _ | a <;> rcases hj : l[j]? with _ | b <;>
    simp only [hi, hj] at hx
  · exact hx
  · exact hx
  · exact hx
  · rcases List.mem_or_eq_of_mem_set hx with h1 | h1
    · rcases List.mem_or_eq_of_mem_set h1 with h2 | h2
      · exact h2
      · exact h2 ▸ List.getElem?_mem hj
    · exact h1 ▸ List.getElem?_mem hi

/-- The shuffle loop only permutes the list. -/
theorem mem_fyLoop {rand : Nat → Nat} {x : α} :
    ∀ {k : Nat} {l : List α}, x ∈ fyLoop rand l k → x ∈ l := by
  intro k
  induction k with
  | zero => intro l h; exact h
  | succ i ih =>
    intro l h
    simp only [fyLoop] at h
    exact mem_listSwap (ih h)

/-- The shuffle only permutes the list. -/
theorem mem_fisherYates {rand : Nat → Nat} {l : List α} {x : α}
    (h : x ∈ fisherYates rand l) : x ∈ l := by
  unfold fisherYates at h
  exact mem_fyLoop h

/-- Every card of the composed deck comes from the input pool: the three
partitions and the backfill list are filters of the sorted pool, and the slot
slices only select from them. -/
theorem composeDeck_subset (cards : List FlashCard) (n : ℤ) (now : ℚ) :
    composeDeck cards n now ⊆ cards := by
  have hsort := sortByPriority_subset cards now
  have hfilter : ∀ (p : FlashCard → Bool) (m : ℤ) (x : FlashCard),
      x ∈ jsTake ((sortByPriority cards now).filter p) m → x ∈ cards := by
    intro p m x hm
    exact hsort (List.mem_filter.mp (jsTake_subset _ _ hm)).1
  intro x hx
  simp only [composeDeck] at hx
  split at hx
  · rcases List.mem_append.mp hx with h | h
    · rcases List.mem_append.mp h with h1 | h1
      · rcases List.mem_append.mp h1 with h2 | h2
        · exact hfilter _ _ _ h2
        · exact hfilter _ _ _ h2
      · exact hfilter _ _ _ h1
    · exact hfilter _ _ _ h
  · rcases List.mem_append.mp hx with h | h
    · rcases List.mem_append.mp h with h1 | h1
      · exact hfilter _ _ _ h1
      · exact hfilter _ _ _ h1
    · exact hfilter _ _ _ h

/-- C9: every card in the deck returned by `generateStudyDeck` is an element
of the input pool: the composition fills from filters of the sorted pool, the
backfill draws from the remaining sorted pool, and the final shuffle only
permutes — no card is fabricated or modified. -/
theorem generateStudyDeck_mem_pool (cards : List FlashCard) (n : ℤ) (now : ℚ)
    (rand : Nat → Nat) (c : FlashCard)
    (hc : c ∈ generateStudyDeck cards n now rand) : c ∈ cards := by
  simp only [generateStudyDeck] at hc
  rcases List.mem_append.mp hc with h | h
  · exact composeDeck_subset cards n now (List.take_subset _ _ h)
  · exact composeDeck_subset cards n now (List.drop_subset _ _ (mem_fisherYates h))

/-- C9 witness: instantiation at the one-card pool. -/
theorem generateStudyDeck_mem_pool_witness :
    overdueWeakCard ∈ generateStudyDeck [overdueWeakCard] 10 0 (fun _ => 0) ∧
      overdueWeakCard ∈ [overdueWeakCard] :=
  ⟨by decide,
    generateStudyDeck_mem_pool [overdueWeakCard] 10 0 (fun _ => 0) overdueWeakCard
      (by decide)⟩

end Uchuuichi
